import Mathlib

/-!
Shallow embedding of `src/LABA/course_platform.py` (an educational course
platform: `Course` with three variants, a `Platform` aggregate, and a
JSON-record codec), together with theorems settling the specification
claims about it.

Modelling conventions:
* Python `int` is `Int` (unbounded); list lengths are cast where compared.
* Python `float` results (`completion_rate`) are modelled exactly as `ℚ`.
* Raising an exception is modelled as `Except.error` carrying the message
  (for `KeyError` the missing key's name).
* The class hierarchy `Course` / `ProgrammingCourse` / `DesignCourse` /
  `ScienceCourse` is a tagged variant `CourseKind` on one `Course`
  structure; no variant overrides `add_student`, `completion_rate`,
  `duration_days` or `to_dict` in the source, so these are single
  functions here exactly as there.
-/

namespace CoursePlatform

/-- The variant kind of a course together with its one discriminating
attribute (`language` / `software` / `field`); `base` has none.
Mirrors the subclasses `ProgrammingCourse`, `DesignCourse`,
`ScienceCourse` of `Course`. -/
inductive CourseKind where
  | base : CourseKind
  | programming (language : String) : CourseKind
  | design (software : String) : CourseKind
  | science (field : String) : CourseKind
  deriving DecidableEq, Repr

/-- The `type` tag that `Course.to_dict` writes: `self.__class__.__name__`. -/
def CourseKind.typeName : CourseKind → String
  | .base => "Course"
  | .programming _ => "ProgrammingCourse"
  | .design _ => "DesignCourse"
  | .science _ => "ScienceCourse"

/-- One course: the private attributes `__title`, `__instructor`,
`__start_date`, `__end_date`, `__max_students`, `__students` of the
Python `Course`, plus the variant tag. -/
structure Course where
  title : String
  instructor : String
  start_date : String
  end_date : String
  max_students : Int
  students : List String
  kind : CourseKind
  deriving DecidableEq, Repr

/-- `Course.__init__` (and the variant `__init__`s, which add only the
discriminating attribute): every course starts with `__students = []`;
no attribute is validated at construction. -/
def Course.make (title instructor start_date end_date : String)
    (max_students : Int) (kind : CourseKind) : Course :=
  { title := title, instructor := instructor, start_date := start_date,
    end_date := end_date, max_students := max_students,
    students := [], kind := kind }

/-- `Course.add_student`: raises `CourseFullError` with the message
`Course '<title>' is full.` when `len(students) >= max_students`,
otherwise appends the name (no other validation). -/
def Course.add_student (c : Course) (name : String) : Except String Course :=
  if (c.students.length : Int) ≥ c.max_students then
    .error ("Course '" ++ c.title ++ "' is full.")
  else
    .ok { c with students := c.students ++ [name] }

/-- `Course.completion_rate`: `0.0` when `max_students == 0`, otherwise
`(len(students) / max_students) * 100`; the Python float is modelled as
an exact rational. -/
def Course.completion_rate (c : Course) : ℚ :=
  if c.max_students = 0 then 0
  else ((c.students.length : ℚ) / (c.max_students : ℚ)) * 100

/-- Run a sequence of `add_student` calls left to right; a call that
raises `CourseFullError` leaves the course unchanged (the exception
mutates nothing) and the sequence continues with the next call. -/
def Course.runAdds (c : Course) : List String → Course
  | [] => c
  | n :: ns =>
    match c.add_student n with
    | .ok c' => Course.runAdds c' ns
    | .error _ => Course.runAdds c ns

/-! ### Dates

`Course.duration_days` calls `datetime.strptime(s, "%Y-%m-%d")` on both
date strings and returns `(end - start).days`.  We embed the parser
(1–4 digit year, 1–2 digit month and day, separated by `-`, with
`datetime`'s range checks: year in 1..9999, month in 1..12, day valid
for the month in the proleptic Gregorian calendar) and the day count as
`date.toordinal` (days since 0001-01-00), whose difference is
`(end - start).days`. -/

/-- A parsed calendar date. -/
structure Date where
  year : Nat
  month : Nat
  day : Nat
  deriving DecidableEq, Repr

/-- Gregorian leap-year test, as used by `datetime`. -/
def isLeap (y : Nat) : Bool :=
  (y % 4 = 0 && y % 100 ≠ 0) || y % 400 = 0

/-- Number of days in month `m` of year `y`. -/
def daysInMonth (y m : Nat) : Nat :=
  if m = 2 then (if isLeap y then 29 else 28)
  else if m = 4 || m = 6 || m = 9 || m = 11 then 30
  else 31

/-- Days in the months of year `y` strictly before month `m` (for `m` in 1..12). -/
def daysBeforeMonth (y m : Nat) : Nat :=
  (List.range (m - 1)).foldl (fun acc i => acc + daysInMonth y (i + 1)) 0

/-- `datetime.date.toordinal`: day number of the date in the proleptic
Gregorian calendar, with 0001-01-01 as day 1. -/
def Date.toordinal (d : Date) : Nat :=
  365 * (d.year - 1) + (d.year - 1) / 4 - (d.year - 1) / 100
    + (d.year - 1) / 400 + daysBeforeMonth d.year d.month + d.day

/-- Split a character sequence at every `'-'` (like `str.split("-")`:
the hyphens themselves are dropped and empty pieces are kept). -/
def splitHyphens : List Char → List (List Char)
  | [] => [[]]
  | ch :: cs =>
    if ch = '-' then [] :: splitHyphens cs
    else
      match splitHyphens cs with
      | [] => [[ch]]
      | piece :: pieces => (ch :: piece) :: pieces

/-- A digit sequence read as a decimal number. -/
def charsToNat (l : List Char) : Nat :=
  l.foldl (fun acc ch => acc * 10 + (ch.toNat - 48)) 0

/-- CPython `_strptime`'s `%Y` pattern `\d\d\d\d`: exactly four digits
(digits modelled as ASCII `0-9`). -/
def yearVal? (l : List Char) : Option Nat :=
  if l.length = 4 ∧ l.all Char.isDigit then some (charsToNat l)
  else none

/-- CPython `_strptime`'s `%m` pattern `1[0-2]|0[1-9]|[1-9]`: one or
two digits with value 1..12 (and no strict prefix can match, since a
literal `-` must follow). -/
def monthVal? (l : List Char) : Option Nat :=
  if 1 ≤ l.length ∧ l.length ≤ 2 ∧ l.all Char.isDigit then
    if 1 ≤ charsToNat l ∧ charsToNat l ≤ 12 then some (charsToNat l)
    else none
  else none

/-- CPython `_strptime`'s `%d` pattern
`3[01]|[12]\d|0[1-9]|[1-9]| [1-9]`: one or two digits with value
1..31, or a space followed by a nonzero digit (the space-padded day). -/
def dayVal? (l : List Char) : Option Nat :=
  match l with
  | [' ', ch] =>
    if '1' ≤ ch ∧ ch ≤ '9' then some (ch.toNat - 48)
    else none
  | _ =>
    if 1 ≤ l.length ∧ l.length ≤ 2 ∧ l.all Char.isDigit then
      if 1 ≤ charsToNat l ∧ charsToNat l ≤ 31 then some (charsToNat l)
      else none
    else none

/-- `datetime.strptime(s, "%Y-%m-%d")`: the whole string must match
`(\d\d\d\d)-(1[0-2]|0[1-9]|[1-9])-(3[01]|[12]\d|0[1-9]|[1-9]| [1-9])`
(so the three hyphen-separated pieces are a 4-digit year, a month and a
day as above — each alternative consumes its whole piece because a
literal `-` or the end of the string follows, and any trailing text is
"unconverted data", a `ValueError`), after which the `datetime`
constructor checks `year ≥ 1` (`MINYEAR`) and the day against the
month's length in the proleptic Gregorian calendar.  `none` models the
`ValueError` that `strptime`/`datetime` raise. -/
def strptimeDate (s : String) : Option Date :=
  match splitHyphens s.data with
  | [ys, ms, ds] =>
    match yearVal? ys, monthVal? ms, dayVal? ds with
    | some y, some m, some d =>
      if 1 ≤ y ∧ d ≤ daysInMonth y m then some ⟨y, m, d⟩
      else none
    | _, _, _ => none
  | _ => none

/-- `Course.duration_days`: parse both stored date strings; on success
return `(end - start).days` (an integer, possibly negative); if either
fails to parse, raise `ValueError("Invalid date format. Use 'YYYY-MM-DD'.")`. -/
def Course.duration_days (c : Course) : Except String Int :=
  match strptimeDate c.start_date, strptimeDate c.end_date with
  | some s, some e => .ok ((e.toordinal : Int) - (s.toordinal : Int))
  | _, _ => .error "Invalid date format. Use 'YYYY-MM-DD'."

/-! ### The codec: `Course.to_dict` / `Course.from_dict` -/

/-- One JSON record as the codec sees it: a string-keyed dictionary in
which each of the keys the codec ever touches is present or absent.
`data.get(k)` is the stored `Option`; `data[k]` is `getRequired` below. -/
structure Record where
  type? : Option String
  title? : Option String
  instructor? : Option String
  start_date? : Option String
  end_date? : Option String
  max_students? : Option Int
  students? : Option (List String)
  language? : Option String
  software? : Option String
  field? : Option String
  deriving DecidableEq, Repr

/-- The empty dictionary: every key absent. -/
def Record.empty : Record :=
  ⟨none, none, none, none, none, none, none, none, none, none⟩

/-- `data[key]`: the value when present, otherwise `KeyError` naming the
key (the `MalformedRecord` failure of the codec). -/
def getRequired {α : Type} (v : Option α) (key : String) : Except String α :=
  match v with
  | some x => .ok x
  | none => .error ("KeyError: " ++ key)

/-- `Course.to_dict`.  The source defines `to_dict` only on the base
class and no subclass overrides it, so the record carries
`self.__class__.__name__` as `type` but never a `language`, `software`
or `field` key. -/
def Course.to_dict (c : Course) : Record :=
  { type? := some c.kind.typeName,
    title? := some c.title,
    instructor? := some c.instructor,
    start_date? := some c.start_date,
    end_date? := some c.end_date,
    max_students? := some c.max_students,
    students? := some c.students,
    language? := none, software? := none, field? := none }

/-- The five `data[...]` accesses every branch of `Course.from_dict`
performs, in source order: `title`, `instructor`, `start_date`,
`end_date`, `max_students`; the first absent key raises `KeyError`. -/
def requiredFields (data : Record) :
    Except String (String × String × String × String × Int) :=
  match data.title? with
  | none => .error "KeyError: title"
  | some t =>
    match data.instructor? with
    | none => .error "KeyError: instructor"
    | some i =>
      match data.start_date? with
      | none => .error "KeyError: start_date"
      | some sd =>
        match data.end_date? with
        | none => .error "KeyError: end_date"
        | some ed =>
          match data.max_students? with
          | none => .error "KeyError: max_students"
          | some mx => .ok (t, i, sd, ed, mx)

/-- `Course.from_dict`: dispatch on `data.get("type")`; each known tag
reconstructs its variant with the discriminating attribute
`data.get(<attr>, "")`; any other (or missing) tag reconstructs a plain
`Course`.  Afterwards `course._Course__students = data.get("students", [])`
restores the student list directly, bypassing `add_student`. -/
def Course.from_dict (data : Record) : Except String Course :=
  if data.type? = some "ProgrammingCourse" then
    match requiredFields data with
    | .error e => .error e
    | .ok (t, i, sd, ed, mx) =>
      .ok { title := t, instructor := i, start_date := sd, end_date := ed,
            max_students := mx, students := data.students?.getD [],
            kind := .programming (data.language?.getD "") }
  else if data.type? = some "DesignCourse" then
    match requiredFields data with
    | .error e => .error e
    | .ok (t, i, sd, ed, mx) =>
      .ok { title := t, instructor := i, start_date := sd, end_date := ed,
            max_students := mx, students := data.students?.getD [],
            kind := .design (data.software?.getD "") }
  else if data.type? = some "ScienceCourse" then
    match requiredFields data with
    | .error e => .error e
    | .ok (t, i, sd, ed, mx) =>
      .ok { title := t, instructor := i, start_date := sd, end_date := ed,
            max_students := mx, students := data.students?.getD [],
            kind := .science (data.field?.getD "") }
  else
    match requiredFields data with
    | .error e => .error e
    | .ok (t, i, sd, ed, mx) =>
      .ok { title := t, instructor := i, start_date := sd, end_date := ed,
            max_students := mx, students := data.students?.getD [],
            kind := .base }

/-! ### Platform -/

/-- `Platform`: a name and the private ordered course list `__courses`. -/
structure Platform where
  name : String
  courses : List Course
  deriving Repr

/-- `Platform.__init__`: starts with an empty course list. -/
def Platform.make (name : String) : Platform :=
  { name := name, courses := [] }

/-- `Platform.add_course`: appends, with no duplicate check. -/
def Platform.add_course (p : Platform) (c : Course) : Platform :=
  { p with courses := p.courses ++ [c] }

/-- `Platform.find_course`: first course with the given title, else `None`. -/
def Platform.find_course (p : Platform) (title : String) : Option Course :=
  p.courses.find? (fun c => c.title = title)

/-- The loop of `Platform.remove_course` over the course list: delete the
first course with the given title and return `True`, else `False`. -/
def removeFirstByTitle (title : String) : List Course → Bool × List Course
  | [] => (false, [])
  | c :: cs =>
    if c.title = title then (true, cs)
    else
      let r := removeFirstByTitle title cs
      (r.1, c :: r.2)

/-- `Platform.remove_course`: removes the first course whose title equals
the argument, returning whether a match was found. -/
def Platform.remove_course (p : Platform) (title : String) : Bool × Platform :=
  ((removeFirstByTitle title p.courses).1,
    { p with courses := (removeFirstByTitle title p.courses).2 })

/-- `Platform.get_all_courses`: a copy of the course list. -/
def Platform.get_all_courses (p : Platform) : List Course :=
  p.courses

/-- Insertion step of the stable descending sort
`sorted(courses, key=lambda c: len(c.students), reverse=True)`:
CPython's sort is stable and `reverse=True` keeps equal-key elements in
their original order, so a later element is inserted after every
earlier element whose key is strictly greater, and before the first
whose key is less than or equal. -/
def insertByCountDesc (c : Course) : List Course → List Course
  | [] => [c]
  | d :: ds =>
    if d.students.length > c.students.length then d :: insertByCountDesc c ds
    else c :: d :: ds

/-- `sorted(courses, key=lambda c: len(c.students), reverse=True)` as a
stable insertion sort (descending by enrollment count, ties in original
order). -/
def sortByCountDesc : List Course → List Course
  | [] => []
  | c :: cs => insertByCountDesc c (sortByCountDesc cs)

/-- Python list slicing `lst[:n]` for an `int` bound `n`: the first `n`
elements when `n ≥ 0`, and all but the last `-n` elements when `n < 0`
(clamped at the ends). -/
def pySliceTo {α : Type} (n : Int) (l : List α) : List α :=
  if 0 ≤ n then l.take n.toNat
  else l.take (l.length - (-n).toNat)

/-- `Platform.get_most_popular(n)`:
`sorted(courses, key=lambda c: len(c.students), reverse=True)[:n]`. -/
def Platform.get_most_popular (p : Platform) (n : Int) : List Course :=
  pySliceTo n (sortByCountDesc p.courses)

/-- `Platform.get_most_popular()` with its default argument `n = 3`. -/
def Platform.get_most_popular_default (p : Platform) : List Course :=
  p.get_most_popular 3

/-! ### Persistence (`load_from_json`)

File I/O is modelled by what the `open`/`json.load` pair can yield at a
path: the file may be absent (`FileNotFoundError`), present but not
valid JSON (`json.JSONDecodeError`), or a decoded list of records. -/

/-- Outcome of `open(filename)` + `json.load` inside `load_from_json`. -/
inductive FileRead where
  | notFound : FileRead
  | decodeError : FileRead
  | decoded (records : List Record) : FileRead

/-- `Platform.load_from_json`: on success replaces the whole course list
with `[Course.from_dict(item) for item in data]`; `FileNotFoundError`
and `json.JSONDecodeError` are caught and printed (the returned
`Option String` is the printed diagnostic), leaving the list as it was;
any other exception (a `KeyError` from `from_dict`) propagates, and the
course list is not assigned. -/
def Platform.load_from_json (p : Platform) (filename : String) :
    FileRead → Except String (Platform × Option String)
  | .notFound => .ok (p, some ("File " ++ filename ++ " not found."))
  | .decodeError => .ok (p, some ("Error reading JSON from " ++ filename ++ "."))
  | .decoded records =>
    match records.mapM Course.from_dict with
    | .ok cs => .ok ({ p with courses := cs }, none)
    | .error e => .error e

/-! ### Concrete instances used by counterexamples and witnesses -/

/-- A programming course with a non-empty `language` and more students
than capacity (as deserialization can produce). -/
def rtCourse : Course :=
  ⟨"Python Basics", "Ivan", "2024-01-01", "2024-06-01", 2,
    ["Alice", "Bob", "Carol"], .programming "Python"⟩

/-- A design course with a non-empty `software` attribute. -/
def serCourse : Course :=
  ⟨"Web Design", "Anna", "2024-02-01", "2024-05-01", 10, [], .design "Figma"⟩

/-- A platform with two courses, enrolling 1 and 2 students. -/
def twoCoursePlatform : Platform :=
  ⟨"P", [⟨"A", "", "", "", 5, ["x"], .base⟩,
          ⟨"B", "", "", "", 5, ["y", "z"], .base⟩]⟩

/-- A record whose student list is longer than its `max_students`. -/
def overfullRecord : Record :=
  { Record.empty with
      type? := some "Course", title? := some "Math",
      instructor? := some "Olga", start_date? := some "2024-01-01",
      end_date? := some "2024-02-01", max_students? := some 1,
      students? := some ["a", "b"] }

/-- The course `Course.from_dict` reconstructs from `overfullRecord`. -/
def overfullCourse : Course :=
  ⟨"Math", "Olga", "2024-01-01", "2024-02-01", 1, ["a", "b"], .base⟩

/-- C1: `from_dict (to_dict c)` reproduces the variant kind, title,
instructor, dates, `max_students` and the verbatim student list (even
over capacity, with no `CourseFullError`), but NOT the discriminating
attribute: `to_dict` is only defined on the base class, writes no
`language` key, and `from_dict` then defaults `language` to `""` — so
the round-trip of a course whose `language` is `"Python"` comes back
with `language = ""`, contradicting the claimed round-trip law. -/
theorem roundtrip_drops_programming_language :
    Course.from_dict (Course.to_dict rtCourse)
      = .ok { rtCourse with kind := .programming "" }
    ∧ CourseKind.programming "" ≠ rtCourse.kind := by
  constructor
  · rfl
  · decide

/-- C5: the record `to_dict` produces for a non-base course is tagged
with the variant kind but contains NONE of `language`, `software`,
`field` (for any course whatsoever), contradicting the claim that
exactly one of them is present with the course's attribute. -/
theorem to_dict_omits_discriminating_attribute :
    (Course.to_dict serCourse).type? = some "DesignCourse"
    ∧ (Course.to_dict serCourse).software? = none
    ∧ ∀ c : Course,
        (Course.to_dict c).language? = none
        ∧ (Course.to_dict c).software? = none
        ∧ (Course.to_dict c).field? = none := by
  refine ⟨rfl, rfl, fun c => ⟨rfl, rfl, rfl⟩⟩

/-- C3 (counterexample): a course reachable through `Course.from_dict`
with two students and `max_students = 1` has
`completion_rate() = 200.0`, outside `[0.0, 100.0]`. -/
theorem completion_rate_above_100_counterexample :
    Course.from_dict overfullRecord = .ok overfullCourse
    ∧ overfullCourse.completion_rate = 200
    ∧ ¬ overfullCourse.completion_rate ≤ 100 := by
  refine ⟨rfl, ?_, ?_⟩ <;> norm_num [overfullCourse, Course.completion_rate]

/-- C3 (amended): for every course satisfying the capacity invariant
`len(students) ≤ max_students`, `completion_rate()` lies in
`[0.0, 100.0]`, equals `0.0` when `max_students == 0`, and otherwise
equals `100 · len(students) / max_students`. -/
theorem completion_rate_bounded_of_invariant (c : Course)
    (h : (c.students.length : Int) ≤ c.max_students) :
    0 ≤ c.completion_rate ∧ c.completion_rate ≤ 100
    ∧ (c.max_students = 0 → c.completion_rate = 0)
    ∧ (c.max_students ≠ 0 →
        c.completion_rate
          = 100 * (c.students.length : ℚ) / (c.max_students : ℚ)) := by
  unfold Course.completion_rate
  by_cases hm : c.max_students = 0
  · simp [hm]
  · have hpos : 0 < c.max_students := by
      rcases lt_or_le 0 c.max_students with h1 | h1
      · exact h1
      · exfalso
        have h0 : (0 : Int) ≤ (c.students.length : Int) := Int.natCast_nonneg _
        omega
    have hposQ : (0 : ℚ) < (c.max_students : ℚ) := by exact_mod_cast hpos
    have hleQ : (c.students.length : ℚ) ≤ (c.max_students : ℚ) := by
      exact_mod_cast h
    have h0Q : (0 : ℚ) ≤ (c.students.length : ℚ) := by positivity
    refine ⟨?_, ?_, ?_, ?_⟩
    · simp only [if_neg hm]
      positivity
    · simp only [if_neg hm]
      have hdiv : (c.students.length : ℚ) / (c.max_students : ℚ) ≤ 1 :=
        (div_le_one hposQ).mpr hleQ
      nlinarith
    · intro h0
      exact absurd h0 hm
    · intro _
      simp only [if_neg hm]
      ring

/-- C3 witness: a half-full course instantiating
`completion_rate_bounded_of_invariant`. -/
theorem completion_rate_bounded_witness :
    ((((⟨"M", "I", "", "", 2, ["a"], .base⟩ : Course)).students.length : Int)
        ≤ (⟨"M", "I", "", "", 2, ["a"], .base⟩ : Course).max_students)
    ∧ (0 ≤ (⟨"M", "I", "", "", 2, ["a"], .base⟩ : Course).completion_rate
        ∧ (⟨"M", "I", "", "", 2, ["a"], .base⟩ : Course).completion_rate ≤ 100
        ∧ ((⟨"M", "I", "", "", 2, ["a"], .base⟩ : Course).max_students = 0 →
            (⟨"M", "I", "", "", 2, ["a"], .base⟩ : Course).completion_rate = 0)
        ∧ ((⟨"M", "I", "", "", 2, ["a"], .base⟩ : Course).max_students ≠ 0 →
            (⟨"M", "I", "", "", 2, ["a"], .base⟩ : Course).completion_rate
              = 100 * (((⟨"M", "I", "", "", 2, ["a"], .base⟩ : Course).students.length : ℚ))
                / ((⟨"M", "I", "", "", 2, ["a"], .base⟩ : Course).max_students : ℚ))) :=
  ⟨by decide, completion_rate_bounded_of_invariant _ (by decide)⟩

/-! ### Lemmas about `requiredFields` and `Course.from_dict` -/

/-- When all five required keys are present, `requiredFields` yields them. -/
theorem requiredFields_ok {data : Record} {t i sd ed : String} {mx : Int}
    (ht : data.title? = some t) (hi : data.instructor? = some i)
    (hsd : data.start_date? = some sd) (hed : data.end_date? = some ed)
    (hmx : data.max_students? = some mx) :
    requiredFields data = .ok (t, i, sd, ed, mx) := by
  unfold requiredFields
  rw [ht, hi, hsd, hed, hmx]

/-- When some required key is absent, `requiredFields` raises `KeyError`. -/
theorem requiredFields_error {data : Record}
    (h : data.title? = none ∨ data.instructor? = none
      ∨ data.start_date? = none ∨ data.end_date? = none
      ∨ data.max_students? = none) :
    ∃ e, requiredFields data = .error e := by
  unfold requiredFields
  cases ht : data.title? with
  | none => exact ⟨_, rfl⟩
  | some t =>
    cases hi : data.instructor? with
    | none => exact ⟨_, rfl⟩
    | some i =>
      cases hsd : data.start_date? with
      | none => exact ⟨_, rfl⟩
      | some sd =>
        cases hed : data.end_date? with
        | none => exact ⟨_, rfl⟩
        | some ed =>
          cases hmx : data.max_students? with
          | none => exact ⟨_, rfl⟩
          | some mx => simp_all

/-- `from_dict` propagates a `requiredFields` failure in every branch. -/
theorem from_dict_error_of_requiredFields {data : Record} {e : String}
    (h : requiredFields data = .error e) :
    Course.from_dict data = .error e := by
  unfold Course.from_dict
  split_ifs <;> rw [h]

/-- C10: a record whose `students` key is absent (all required keys
present) deserializes successfully, to a course with an empty student
list: `data.get("students", [])` supplies the default. -/
theorem from_dict_missing_students_defaults_empty
    (data : Record) (t i sd ed : String) (mx : Int)
    (hstud : data.students? = none)
    (ht : data.title? = some t) (hi : data.instructor? = some i)
    (hsd : data.start_date? = some sd) (hed : data.end_date? = some ed)
    (hmx : data.max_students? = some mx) :
    ∃ c : Course, Course.from_dict data = .ok c ∧ c.students = [] := by
  have hreq := requiredFields_ok ht hi hsd hed hmx
  unfold Course.from_dict
  split_ifs <;> rw [hreq] <;> exact ⟨_, rfl, by simp [hstud]⟩

/-- C10 witness: a record with only the required fields (no `students`
key) deserializes to a course with no students. -/
theorem from_dict_missing_students_witness :
    ({ Record.empty with
        title? := some "T", instructor? := some "I",
        start_date? := some "2024-01-01", end_date? := some "2024-02-01",
        max_students? := some 5 } : Record).students? = none
    ∧ ∃ c : Course,
        Course.from_dict
          { Record.empty with
              title? := some "T", instructor? := some "I",
              start_date? := some "2024-01-01", end_date? := some "2024-02-01",
              max_students? := some 5 } = .ok c
        ∧ c.students = [] :=
  ⟨rfl, from_dict_missing_students_defaults_empty _ "T" "I" "2024-01-01"
    "2024-02-01" 5 rfl rfl rfl rfl rfl rfl⟩

/-- C7: `from_dict`'s error handling. (1) If any required key (`title`,
`instructor`, `start_date`, `end_date`, `max_students`) is absent, it
fails with `KeyError` (the `MalformedRecord` failure). (2) With all
required keys present: an unknown or missing `type` tag reconstructs a
plain base `Course`, discarding any discriminating attribute the record
carries; (3) a known variant tag whose discriminating key is absent
defaults that attribute to `""`. -/
theorem from_dict_tag_and_missing_field_spec (data : Record) :
    ((data.title? = none ∨ data.instructor? = none
        ∨ data.start_date? = none ∨ data.end_date? = none
        ∨ data.max_students? = none) →
      ∃ e, Course.from_dict data = .error e)
    ∧ ∀ (t i sd ed : String) (mx : Int),
        data.title? = some t → data.instructor? = some i →
        data.start_date? = some sd → data.end_date? = some ed →
        data.max_students? = some mx →
        (data.type? ≠ some "ProgrammingCourse" →
          data.type? ≠ some "DesignCourse" →
          data.type? ≠ some "ScienceCourse" →
          Course.from_dict data
            = .ok ⟨t, i, sd, ed, mx, data.students?.getD [], .base⟩)
        ∧ (data.type? = some "ProgrammingCourse" → data.language? = none →
            Course.from_dict data
              = .ok ⟨t, i, sd, ed, mx, data.students?.getD [], .programming ""⟩)
        ∧ (data.type? = some "DesignCourse" → data.software? = none →
            Course.from_dict data
              = .ok ⟨t, i, sd, ed, mx, data.students?.getD [], .design ""⟩)
        ∧ (data.type? = some "ScienceCourse" → data.field? = none →
            Course.from_dict data
              = .ok ⟨t, i, sd, ed, mx, data.students?.getD [], .science ""⟩) := by
  constructor
  · intro h
    obtain ⟨e, he⟩ := requiredFields_error h
    exact ⟨e, from_dict_error_of_requiredFields he⟩
  · intro t i sd ed mx ht hi hsd hed hmx
    have hreq := requiredFields_ok ht hi hsd hed hmx
    refine ⟨?_, ?_, ?_, ?_⟩
    · intro h1 h2 h3
      unfold Course.from_dict
      rw [if_neg h1, if_neg h2, if_neg h3, hreq]
    · intro h1 hl
      unfold Course.from_dict
      rw [if_pos h1, hreq, hl]
      rfl
    · intro h2 hs
      have h1 : data.type? ≠ some "ProgrammingCourse" := by
        rw [h2]; decide
      unfold Course.from_dict
      rw [if_neg h1, if_pos h2, hreq, hs]
      rfl
    · intro h3 hf
      have h1 : data.type? ≠ some "ProgrammingCourse" := by
        rw [h3]; decide
      have h2 : data.type? ≠ some "DesignCourse" := by
        rw [h3]; decide
      unfold Course.from_dict
      rw [if_neg h1, if_neg h2, if_pos h3, hreq, hf]
      rfl


/-- C7 witness: the empty record fails with `KeyError`, and a record
tagged `"Course"` (not a variant tag) with a stray `language` key
reconstructs a plain base course, discarding the attribute. -/
theorem from_dict_tag_spec_witness :
    (∃ e, Course.from_dict Record.empty = .error e)
    ∧ Course.from_dict
        { Record.empty with
            type? := some "Course", title? := some "T",
            instructor? := some "I", start_date? := some "2024-01-01",
            end_date? := some "2024-02-01", max_students? := some 5,
            language? := some "Python" }
      = .ok ⟨"T", "I", "2024-01-01", "2024-02-01", 5, [], .base⟩ := by
  constructor
  · exact (from_dict_tag_and_missing_field_spec Record.empty).1 (Or.inl rfl)
  · exact ((from_dict_tag_and_missing_field_spec _).2 "T" "I" "2024-01-01"
      "2024-02-01" 5 rfl rfl rfl rfl rfl).1 (by decide) (by decide) (by decide)

/-! ### `add_student` and the capacity invariant -/

/-- A successful or failed `add_student` call never changes
`max_students` (or the title). -/
theorem runAdds_max_students_eq (ns : List String) (c : Course) :
    (c.runAdds ns).max_students = c.max_students := by
  induction ns generalizing c with
  | nil => rfl
  | cons n ns ih =>
    unfold Course.runAdds Course.add_student
    split_ifs with h
    · exact ih c
    · exact ih _

/-- Each `add_student` step preserves `len(students) ≤ max_students`. -/
theorem runAdds_students_le (ns : List String) (c : Course)
    (h : (c.students.length : Int) ≤ c.max_students) :
    ((c.runAdds ns).students.length : Int) ≤ c.max_students := by
  induction ns generalizing c with
  | nil => exact h
  | cons n ns ih =>
    unfold Course.runAdds Course.add_student
    split_ifs with hfull
    · exact ih c h
    · push_neg at hfull
      have : ((c.students ++ [n]).length : Int) ≤ c.max_students := by
        simp only [List.length_append, List.length_singleton]
        push_cast
        omega
      exact ih _ this

/-- C2: for a normally constructed course (empty student list,
`max_students ≥ 0` as the data model requires) the invariant
`len(students) ≤ max_students` holds after any sequence of
`add_student` calls; a single call at capacity raises `CourseFullError`
with the message naming the course title and leaves the course (hence
its student list) unchanged, while a call below capacity appends the
given name verbatim — with no validation of the name. -/
theorem add_student_capacity_spec :
    (∀ (t i sd ed : String) (mx : Int) (k : CourseKind)
        (names : List String), 0 ≤ mx →
      (((Course.make t i sd ed mx k).runAdds names).students.length : Int)
        ≤ mx)
    ∧ ∀ (c : Course) (name : String),
        (((c.students.length : Int) = c.max_students →
          c.add_student name
            = .error ("Course '" ++ c.title ++ "' is full.")))
        ∧ ((c.students.length : Int) < c.max_students →
          c.add_student name = .ok { c with students := c.students ++ [name] }) := by
  constructor
  · intro t i sd ed mx k names hmx
    exact runAdds_students_le names (Course.make t i sd ed mx k)
      (by simpa [Course.make] using hmx)
  · intro c name
    constructor
    · intro h
      unfold Course.add_student
      rw [if_pos (le_of_eq h.symm)]
    · intro h
      unfold Course.add_student
      rw [if_neg (not_le.mpr h)]

/-- C2 witness: a course of capacity 1: one add succeeds (appending the
name), the next raises `CourseFullError` naming the title; the
invariant holds after the two-call sequence. -/
theorem add_student_capacity_witness :
    ((0 : Int) ≤ 1
      ∧ (((Course.make "Solo" "I" "" "" 1 .base).runAdds
            ["Alice", "Bob"]).students.length : Int) ≤ 1)
    ∧ (((Course.make "Solo" "I" "" "" 1 .base).students.length : Int)
          < (Course.make "Solo" "I" "" "" 1 .base).max_students
        ∧ (Course.make "Solo" "I" "" "" 1 .base).add_student "Alice"
            = .ok { Course.make "Solo" "I" "" "" 1 .base with
                      students := (Course.make "Solo" "I" "" "" 1 .base).students
                        ++ ["Alice"] })
    ∧ ((((⟨"Solo", "I", "", "", 1, ["Alice"], .base⟩ : Course)).students.length : Int)
          = (⟨"Solo", "I", "", "", 1, ["Alice"], .base⟩ : Course).max_students
        ∧ (⟨"Solo", "I", "", "", 1, ["Alice"], .base⟩ : Course).add_student "Bob"
            = .error "Course 'Solo' is full.") :=
  ⟨⟨by decide,
      add_student_capacity_spec.1 "Solo" "I" "" "" 1 .base ["Alice", "Bob"]
        (by decide)⟩,
    ⟨by decide,
      (add_student_capacity_spec.2 (Course.make "Solo" "I" "" "" 1 .base)
        "Alice").2 (by decide)⟩,
    ⟨by decide,
      (add_student_capacity_spec.2 (⟨"Solo", "I", "", "", 1, ["Alice"], .base⟩ : Course)
        "Bob").1 (by decide)⟩⟩

/-! ### `remove_course` -/

/-- The removal loop returns whether some course matched the title. -/
theorem removeFirstByTitle_fst (t : String) (l : List Course) :
    (removeFirstByTitle t l).1 = l.any (fun c => c.title == t) := by
  induction l with
  | nil => rfl
  | cons c cs ih =>
    unfold removeFirstByTitle
    by_cases h : c.title = t
    · simp [h]
    · simp [h, ih]

/-- The removal loop deletes exactly the first matching course. -/
theorem removeFirstByTitle_snd (t : String) (l : List Course) :
    (removeFirstByTitle t l).2 = l.eraseP (fun c => c.title == t) := by
  induction l with
  | nil => rfl
  | cons c cs ih =>
    unfold removeFirstByTitle
    by_cases h : c.title = t
    · simp [h, List.eraseP_cons]
    · simp [h, List.eraseP_cons, ih]

/-- C8: `remove_course(title)` returns `True` exactly when some course
has the given title; the resulting course list is the original with the
first match deleted (`eraseP`: the courses before and after the match
keep their relative order), one element shorter when a match exists;
with no match it returns `False` and the platform is unchanged. -/
theorem remove_course_spec (p : Platform) (t : String) :
    (p.remove_course t).1 = p.courses.any (fun c => c.title == t)
    ∧ (p.remove_course t).2.courses = p.courses.eraseP (fun c => c.title == t)
    ∧ (p.remove_course t).2.name = p.name
    ∧ (p.courses.any (fun c => c.title == t) = true →
        (p.remove_course t).2.courses.length + 1 = p.courses.length)
    ∧ (p.courses.any (fun c => c.title == t) = false →
        (p.remove_course t).2 = p) := by
  refine ⟨removeFirstByTitle_fst t p.courses,
    removeFirstByTitle_snd t p.courses, rfl, ?_, ?_⟩
  · intro h
    obtain ⟨c, hc, hct⟩ := List.any_eq_true.mp h
    show (removeFirstByTitle t p.courses).2.length + 1 = p.courses.length
    rw [removeFirstByTitle_snd t p.courses]
    exact List.length_eraseP_add_one hc hct
  · intro h
    have hall : ∀ c ∈ p.courses, ¬ ((fun c => c.title == t) c = true) := by
      intro c hc hct
      exact (List.any_eq_false.mp h) c hc hct
    have heq : p.courses.eraseP (fun c => c.title == t) = p.courses :=
      List.eraseP_of_forall_not hall
    show ({ p with courses := (removeFirstByTitle t p.courses).2 } : Platform) = p
    rw [removeFirstByTitle_snd t p.courses, heq]

/-- C8 witness: removing an existing title from a two-course platform
succeeds and shortens the list; removing an absent title is a no-op. -/
theorem remove_course_witness :
    ((⟨"P", [serCourse, rtCourse]⟩ : Platform).courses.any
        (fun c => c.title == "Web Design") = true
      ∧ ((⟨"P", [serCourse, rtCourse]⟩ : Platform).remove_course
          "Web Design").2.courses.length + 1
        = (⟨"P", [serCourse, rtCourse]⟩ : Platform).courses.length)
    ∧ ((⟨"P", [serCourse, rtCourse]⟩ : Platform).courses.any
        (fun c => c.title == "Nope") = false
      ∧ ((⟨"P", [serCourse, rtCourse]⟩ : Platform).remove_course "Nope").2
        = (⟨"P", [serCourse, rtCourse]⟩ : Platform)) :=
  ⟨⟨by decide, (remove_course_spec ⟨"P", [serCourse, rtCourse]⟩
      "Web Design").2.2.2.1 (by decide)⟩,
    ⟨by decide, (remove_course_spec ⟨"P", [serCourse, rtCourse]⟩
      "Nope").2.2.2.2 (by decide)⟩⟩

/-! ### `load_from_json` -/

/-- C6: loading from a nonexistent file or from one whose contents fail
to decode catches the exception, reports it as a printed diagnostic
(the `some` message) rather than propagating, and leaves the platform —
in particular its course list — exactly as it was; a successful decode
replaces the whole course list with the deserialized records' courses,
in document order. -/
theorem load_from_json_spec (p : Platform) (fn : String) :
    p.load_from_json fn .notFound
      = .ok (p, some ("File " ++ fn ++ " not found."))
    ∧ p.load_from_json fn .decodeError
      = .ok (p, some ("Error reading JSON from " ++ fn ++ "."))
    ∧ ∀ (records : List Record) (cs : List Course),
        records.mapM Course.from_dict = .ok cs →
        p.load_from_json fn (.decoded records)
          = .ok ({ p with courses := cs }, none) := by
  refine ⟨rfl, rfl, ?_⟩
  intro records cs h
  have hstep : p.load_from_json fn (.decoded records)
      = match records.mapM Course.from_dict with
        | .ok cs => .ok ({ p with courses := cs }, none)
        | .error e => .error e := rfl
  rw [hstep, h]

/-- C6 witness: loading `overfullRecord` into a platform that already
holds `serCourse` replaces the course list; the two failure modes leave
it alone and report. -/
theorem load_from_json_witness :
    (⟨"P", [serCourse]⟩ : Platform).load_from_json "db.json" .notFound
      = .ok (⟨"P", [serCourse]⟩, some "File db.json not found.")
    ∧ ([overfullRecord].mapM Course.from_dict = .ok [overfullCourse]
      ∧ (⟨"P", [serCourse]⟩ : Platform).load_from_json "db.json"
          (.decoded [overfullRecord])
        = .ok (⟨"P", [overfullCourse]⟩, none)) :=
  ⟨(load_from_json_spec ⟨"P", [serCourse]⟩ "db.json").1,
    ⟨by rfl, (load_from_json_spec ⟨"P", [serCourse]⟩ "db.json").2.2
      [overfullRecord] [overfullCourse] (by rfl)⟩⟩

/-! ### `duration_days` -/

/-- C9: `duration_days()` parses the two stored strings as ISO calendar
dates and returns the day difference `end − start` as an integer (the
difference of the dates' ordinals), which is negative when `end_date`
precedes `start_date` — no rejection; it raises `InvalidDateFormat`
exactly when at least one of the two strings does not parse; and
construction (`Course.make` and the variant constructors) accepts any
date strings unvalidated, storing them as given. -/
theorem duration_days_spec :
    (∀ c : Course,
      (∀ s e : Date, strptimeDate c.start_date = some s →
        strptimeDate c.end_date = some e →
        c.duration_days = .ok ((e.toordinal : Int) - (s.toordinal : Int)))
      ∧ ((strptimeDate c.start_date = none ∨ strptimeDate c.end_date = none) →
          c.duration_days = .error "Invalid date format. Use 'YYYY-MM-DD'.")
      ∧ (∀ s e : Date, strptimeDate c.start_date = some s →
          strptimeDate c.end_date = some e → e.toordinal < s.toordinal →
          ∃ n : Int, c.duration_days = .ok n ∧ n < 0))
    ∧ ∀ (t i sd ed : String) (mx : Int) (k : CourseKind),
        (Course.make t i sd ed mx k).start_date = sd
        ∧ (Course.make t i sd ed mx k).end_date = ed
        ∧ (Course.make t i sd ed mx k).students = [] := by
  constructor
  · intro c
    refine ⟨?_, ?_, ?_⟩
    · intro s e hs he
      unfold Course.duration_days
      rw [hs, he]
    · intro h
      unfold Course.duration_days
      rcases h with h | h
      · rw [h]
      · rw [h]
        cases strptimeDate c.start_date <;> rfl
    · intro s e hs he hlt
      refine ⟨(e.toordinal : Int) - (s.toordinal : Int), ?_, ?_⟩
      · unfold Course.duration_days
        rw [hs, he]
      · have : (e.toordinal : Int) < (s.toordinal : Int) := by
          exact_mod_cast hlt
        omega
  · intro t i sd ed mx k
    exact ⟨rfl, rfl, rfl⟩

/-- C9 witness: a course whose `end_date` precedes its `start_date`
yields a negative duration (and parses), and a course with a malformed
`start_date` raises the format error; construction stored both verbatim. -/
theorem duration_days_witness :
    (strptimeDate (Course.make "T" "I" "2024-01-10" "2024-01-05" 5 .base).start_date
        = some ⟨2024, 1, 10⟩
      ∧ strptimeDate (Course.make "T" "I" "2024-01-10" "2024-01-05" 5 .base).end_date
        = some ⟨2024, 1, 5⟩
      ∧ (Date.toordinal ⟨2024, 1, 5⟩) < (Date.toordinal ⟨2024, 1, 10⟩)
      ∧ ∃ n : Int,
          (Course.make "T" "I" "2024-01-10" "2024-01-05" 5 .base).duration_days
            = .ok n ∧ n < 0)
    ∧ (strptimeDate (Course.make "T" "I" "10.01.2024" "2024-01-05" 5 .base).start_date
        = none
      ∧ (Course.make "T" "I" "10.01.2024" "2024-01-05" 5 .base).duration_days
        = .error "Invalid date format. Use 'YYYY-MM-DD'.")
    ∧ (Course.make "T" "I" "10.01.2024" "2024-01-05" 5 .base).start_date
        = "10.01.2024" :=
  ⟨⟨by decide, by decide, by decide,
      (duration_days_spec.1 (Course.make "T" "I" "2024-01-10" "2024-01-05" 5 .base)).2.2
        ⟨2024, 1, 10⟩ ⟨2024, 1, 5⟩ (by decide) (by decide) (by decide)⟩,
    ⟨by decide,
      (duration_days_spec.1 (Course.make "T" "I" "10.01.2024" "2024-01-05" 5 .base)).2.1
        (Or.inl (by decide))⟩,
    (duration_days_spec.2 "T" "I" "10.01.2024" "2024-01-05" 5 .base).1⟩

/-! ### `get_most_popular` -/

/-- Inserting a course is a permutation of prepending it. -/
theorem insertByCountDesc_perm (c : Course) (l : List Course) :
    (insertByCountDesc c l).Perm (c :: l) := by
  induction l with
  | nil => rfl
  | cons d ds ih =>
    unfold insertByCountDesc
    split_ifs with h
    · exact (List.Perm.cons d ih).trans (List.Perm.swap c d ds)
    · rfl

/-- The stable sort permutes the course list. -/
theorem sortByCountDesc_perm (l : List Course) :
    (sortByCountDesc l).Perm l := by
  induction l with
  | nil => rfl
  | cons c cs ih =>
    exact (insertByCountDesc_perm c (sortByCountDesc cs)).trans
      (List.Perm.cons c ih)

/-- Inserting preserves descending order by student count. -/
theorem insertByCountDesc_pairwise (c : Course) (l : List Course)
    (h : l.Pairwise (fun a b => b.students.length ≤ a.students.length)) :
    (insertByCountDesc c l).Pairwise
      (fun a b => b.students.length ≤ a.students.length) := by
  induction l with
  | nil => simp [insertByCountDesc]
  | cons d ds ih =>
    rw [List.pairwise_cons] at h
    obtain ⟨hd, hds⟩ := h
    unfold insertByCountDesc
    split_ifs with hgt
    · rw [List.pairwise_cons]
      refine ⟨?_, ih hds⟩
      intro x hx
      have hx' : x ∈ c :: ds := (insertByCountDesc_perm c ds).mem_iff.mp hx
      rcases List.mem_cons.mp hx' with hx' | hx'
      · subst hx'
        omega
      · exact hd x hx'
    · rw [List.pairwise_cons]
      refine ⟨?_, ?_⟩
      · intro x hx
        rcases List.mem_cons.mp hx with hx | hx
        · subst hx
          omega
        · have := hd x hx
          omega
      · exact List.pairwise_cons.mpr ⟨hd, hds⟩

/-- The sorted course list is descending in student count. -/
theorem sortByCountDesc_pairwise (l : List Course) :
    (sortByCountDesc l).Pairwise
      (fun a b => b.students.length ≤ a.students.length) := by
  induction l with
  | nil => simp [sortByCountDesc]
  | cons c cs ih => exact insertByCountDesc_pairwise c _ ih

/-- Unfolding: a strictly more popular head is kept in front. -/
theorem insertByCountDesc_cons_pos {c d : Course} (ds : List Course)
    (h : d.students.length > c.students.length) :
    insertByCountDesc c (d :: ds) = d :: insertByCountDesc c ds := by
  conv_lhs => unfold insertByCountDesc
  rw [if_pos h]

/-- Unfolding: a head no more popular than `c` puts `c` in front. -/
theorem insertByCountDesc_cons_neg {c d : Course} (ds : List Course)
    (h : ¬ d.students.length > c.students.length) :
    insertByCountDesc c (d :: ds) = c :: d :: ds := by
  unfold insertByCountDesc
  rw [if_neg h]

/-- Stability, step: the courses of any fixed student count `k` in
`insertByCountDesc c l` are `c` first (when `c` has count `k`) and then
those of `l` in order: `c` is never inserted past an equal count. -/
theorem insertByCountDesc_filter (c : Course) (l : List Course) (k : Nat) :
    (insertByCountDesc c l).filter (fun d => d.students.length == k)
      = (if c.students.length = k then [c] else [])
        ++ l.filter (fun d => d.students.length == k) := by
  induction l with
  | nil =>
    by_cases hc : c.students.length = k <;>
      simp [insertByCountDesc, List.filter_cons, hc]
  | cons d ds ih =>
    by_cases hgt : d.students.length > c.students.length
    · rw [insertByCountDesc_cons_pos ds hgt]
      by_cases hd : d.students.length = k
      · have hc : ¬ c.students.length = k := by omega
        simp [List.filter_cons, hd, hc, ih]
      · simp [List.filter_cons, hd, ih]
    · rw [insertByCountDesc_cons_neg ds hgt]
      by_cases hc : c.students.length = k <;>
        simp [List.filter_cons, hc]

/-- Stability of the sort: for every student count `k`, the courses
with exactly `k` students appear in the sorted list in the same order
as in the original list. -/
theorem sortByCountDesc_filter (l : List Course) (k : Nat) :
    (sortByCountDesc l).filter (fun d => d.students.length == k)
      = l.filter (fun d => d.students.length == k) := by
  induction l with
  | nil => rfl
  | cons c cs ih =>
    show (insertByCountDesc c (sortByCountDesc cs)).filter _ = _
    rw [insertByCountDesc_filter, ih]
    by_cases hc : c.students.length = k
    · simp [List.filter_cons, hc]
    · simp [List.filter_cons, hc]

/-- C4 (counterexample): on a platform with two courses,
`get_most_popular(-1)` is not the empty sequence — Python's `[:n]`
slicing with a negative bound keeps all but the last `-n` elements, so
it returns the most popular course. -/
theorem get_most_popular_negative_counterexample :
    twoCoursePlatform.get_most_popular (-1)
      = [⟨"B", "", "", "", 5, ["y", "z"], .base⟩]
    ∧ twoCoursePlatform.get_most_popular (-1) ≠ [] := by
  refine ⟨by decide, by decide⟩

/-- C4 (amended): `get_most_popular(n)` is a prefix of the course list
stably sorted by descending student count (a permutation of the course
list, descending, with the courses of equal count in their original
relative order); its length is `min(n, total)` when `n > 0`; it is
empty when `n = 0`; when `n < 0` Python slicing keeps
`total − min(−n, total)` sorted courses (all but the last `−n`), so it
is empty only when `−n ≥ total`; `n` defaults to 3. -/
theorem get_most_popular_spec (p : Platform) (n : Int) :
    (p.get_most_popular n).Pairwise
      (fun a b => b.students.length ≤ a.students.length)
    ∧ (p.get_most_popular n).IsPrefix (sortByCountDesc p.courses)
    ∧ (sortByCountDesc p.courses).Perm p.courses
    ∧ (∀ k : Nat, (sortByCountDesc p.courses).filter
          (fun c => c.students.length == k)
        = p.courses.filter (fun c => c.students.length == k))
    ∧ (0 < n → (p.get_most_popular n).length
        = min n.toNat p.courses.length)
    ∧ (n = 0 → p.get_most_popular n = [])
    ∧ (n < 0 → (p.get_most_popular n).length
        = p.courses.length - min (-n).toNat p.courses.length)
    ∧ p.get_most_popular_default = p.get_most_popular 3 := by
  have hperm := sortByCountDesc_perm p.courses
  have hlen : (sortByCountDesc p.courses).length = p.courses.length :=
    hperm.length_eq
  have hpre : (p.get_most_popular n).IsPrefix (sortByCountDesc p.courses) := by
    unfold Platform.get_most_popular pySliceTo
    split_ifs <;> exact List.take_prefix _ _
  refine ⟨?_, hpre, hperm, sortByCountDesc_filter p.courses, ?_, ?_, ?_, rfl⟩
  · exact (sortByCountDesc_pairwise p.courses).sublist hpre.sublist
  · intro hn
    unfold Platform.get_most_popular pySliceTo
    rw [if_pos (le_of_lt hn), List.length_take, hlen]
  · intro hn
    subst hn
    rfl
  · intro hn
    unfold Platform.get_most_popular pySliceTo
    rw [if_neg (not_le.mpr hn), List.length_take, hlen]
    omega

/-- C4 witness: on the two-course platform, `get_most_popular(1)` has
length `min(1, 2) = 1`. -/
theorem get_most_popular_witness :
    ((0 : Int) < 1
      ∧ (twoCoursePlatform.get_most_popular 1).length
        = min (Int.toNat 1) twoCoursePlatform.courses.length)
    ∧ ((0 : Int) = 0 → twoCoursePlatform.get_most_popular 0 = []) :=
  ⟨⟨by decide, (get_most_popular_spec twoCoursePlatform 1).2.2.2.2.1 (by decide)⟩,
    fun _ => (get_most_popular_spec twoCoursePlatform 0).2.2.2.2.2.1 rfl⟩

end CoursePlatform
